/-
Verification of the Snapcore-Platform charging-analytics services
(`services/csv_processor.py` and `services/efficiency_calculator.py`)
against their natural-language specification.

The Python code is shallowly embedded: pandas DataFrames become lists of
records with `Option` fields for missing values (NaN/NaT), floats become
exact rationals (`ℚ`), and raising code returns `Except String`.  Each
definition carries a note pointing at the source function it embeds.
-/

import Mathlib

set_option maxRecDepth 4000

/-! ## Scalar number parsing (`TeslaCSVProcessor._to_number` and friends)

`pd.to_numeric(errors="coerce")` on a plain decimal/scientific literal is
modelled by `parseDecimal`; strings that do not parse become `none` (NaN).
-/

/-- Numeric value of a list of decimal digit characters. -/
def digitsVal (cs : List Char) : ℕ :=
  cs.foldl (fun a c => a * 10 + (c.toNat - 48)) 0

/-- Parse a nonempty all-digit character list, else `none`. -/
def parseNat (cs : List Char) : Option ℕ :=
  if cs ≠ [] ∧ cs.all (fun c => c.isDigit) then some (digitsVal cs) else none

/-- Strip one optional leading sign; returns (isNegative, rest). -/
def parseSign : List Char → (Bool × List Char)
  | '-' :: rest => (true, rest)
  | '+' :: rest => (false, rest)
  | cs => (false, cs)

/-- Split at the first decimal point; fails if a second point occurs. -/
def splitDot (cs : List Char) : Option (List Char × List Char) :=
  match cs with
  | [] => some ([], [])
  | '.' :: rest => if rest.contains '.' then none else some ([], rest)
  | c :: rest =>
      match splitDot rest with
      | some (ip, fp) => some (c :: ip, fp)
      | none => none

/-- Split mantissa from an optional exponent part at the first `e`/`E`. -/
def splitExp : List Char → (List Char × Option (List Char))
  | [] => ([], none)
  | c :: cs =>
      if c == 'e' || c == 'E' then ([], some cs)
      else
        match splitExp cs with
        | (m, ex) => (c :: m, ex)

/-- Powers of ten with integer exponent, as an exact rational. -/
def pow10 (e : ℤ) : ℚ :=
  if 0 ≤ e then ((10 : ℚ) ^ e.toNat) else 1 / ((10 : ℚ) ^ (-e).toNat)

/-- Mantissa `[-]digits[.digits]` (at least one digit overall), as `ℚ`. -/
def parseMantissa (cs : List Char) : Option ℚ :=
  match parseSign cs with
  | (neg, cs1) =>
      match splitDot cs1 with
      | none => none
      | some (ip, fp) =>
          if (ip ++ fp) ≠ [] ∧ (ip ++ fp).all (fun c => c.isDigit) then
            let v : ℚ := (digitsVal (ip ++ fp) : ℚ) / pow10 (fp.length : ℤ)
            some (if neg then -v else v)
          else none

/-- Exponent `[-]digits`, as `ℤ`. -/
def parseExp (cs : List Char) : Option ℤ :=
  match parseSign cs with
  | (neg, cs1) =>
      match parseNat cs1 with
      | some n => some (if neg then -(n : ℤ) else (n : ℤ))
      | none => none

/-- Model of `float(...)` / `pd.to_numeric(..., errors="coerce")` on one
cell: a decimal literal with optional sign, fraction and exponent parses to
an exact rational; anything else coerces to NaN (`none`). -/
def parseDecimal (s : String) : Option ℚ :=
  match splitExp s.data with
  | (m, none) => parseMantissa m
  | (m, some e) =>
      match parseMantissa m, parseExp e with
      | some mv, some ev => some (mv * pow10 ev)
      | _, _ => none

/-- The character class kept by `_to_number`'s first regex
(`[^\d\.\-eE,]` is removed). -/
def numKeepChar (c : Char) : Bool :=
  c.isDigit || c == '.' || c == '-' || c == 'e' || c == 'E' || c == ','

/-- Embeds `TeslaCSVProcessor._to_number` acting on one cell: strip
characters outside the numeric class, then if both comma and dot occur the
commas are thousands separators (removed), otherwise a comma becomes the
decimal dot; finally coerce to a number. -/
def toNumber (s : String) : Option ℚ :=
  let f := s.data.filter numKeepChar
  let hasComma := f.contains ','
  let hasDot := f.contains '.'
  let g :=
    if hasComma && hasDot then f.filter (fun c => !(c == ','))
    else f.map (fun c => if c == ',' then '.' else c)
  parseDecimal (String.mk g)

/-- Embeds `TeslaCSVProcessor._to_currency` on one cell: strip everything
but digits, commas, dots and minus (currency symbols, spaces, letters),
then `_to_number`. -/
def toCurrency (s : String) : Option ℚ :=
  toNumber (String.mk (s.data.filter (fun c => c.isDigit || c == ',' || c == '.' || c == '-')))

/-- Claim C2 (counterexample): the claim maps "1.234,56" to 1234.56, but
the code's both-separators rule removes the commas from "1.234,56" leaving
"1.23456", which parses to 1.23456, not 1234.56. -/
theorem c2_parse_counterexample :
    toNumber "1.234,56" = some (123456 / 100000 : ℚ) ∧
    (123456 / 100000 : ℚ) ≠ (123456 / 100 : ℚ) := by
  constructor
  · rfl
  · norm_num

/-- Claim C2 (amended): the number parser maps "1,234.56" to 1234.56 and
"12,5" to 12.5; applying the both-separators rule to "1.234,56" removes
the commas and yields 1.23456 (the dot stays the decimal separator). -/
theorem c2_parse_amended :
    toNumber "1,234.56" = some (123456 / 100 : ℚ) ∧
    toNumber "12,5" = some (125 / 10 : ℚ) ∧
    toNumber "1.234,56" = some (123456 / 100000 : ℚ) := by
  refine ⟨?_, ?_, ?_⟩ <;> rfl

/-! ## Data model for the CSV processor (`TeslaCSVProcessor`)

A cell of a DataFrame column that may hold either raw text (as read from
the CSV) or an already-numeric value (after a cleaning pass) is a
`Cell`.  Missing values (NaN) are represented by the raw text "nan",
matching what `astype(str)` produces for them.  Re-parsing an
already-numeric cell is the identity, since Python float repr
round-trips exactly through `astype(str)` + `pd.to_numeric`.

`pd.to_datetime` outcomes are modelled as the date cells themselves:
a date cell is `none` (NaT / unparseable) or a `Timestamp` carrying the
instant's calendar attributes and the timezone offset (in minutes) the
raw string carried, `none` when the string was timezone-naive.
Timestamp equality is structural.

The embedded tables carry the three required columns
(`session_date`, `energy_added_kwh`, `total_cost`) and the two SOC
columns gated by presence flags; the remaining optional columns
(durations, locations, powers, times) are not part of the embedding, and
none of the cleaning steps that touch them drops or merges rows. -/

structure Timestamp where
  utcMin : ℤ
  ym : ℤ
  hour : ℤ
  wkday : ℤ
  tz : Option ℤ
deriving DecidableEq

/-- Strip the timezone from a timestamp (`tz_convert(None)` after `utc=True`). -/
def stripTz (ts : Timestamp) : Timestamp :=
  { ts with tz := none }

/-- A DataFrame cell: raw text or an already-numeric value. -/
abbrev Cell := String ⊕ ℚ

/-- `_to_number` on a column cell (numeric cells round-trip unchanged). -/
def toNumberCell : Cell → Option ℚ
  | Sum.inl s => toNumber s
  | Sum.inr q => some q

/-- `_to_currency` on a column cell. -/
def toCurrencyCell : Cell → Option ℚ
  | Sum.inl s => toCurrency s
  | Sum.inr q => some q

/-- Embeds `TeslaCSVProcessor._to_percent` on one cell: strip percent
signs and spaces, coerce to a number, and scale values at most 1 up by
100 (the obviously-0-to-1 heuristic applies to every parsed value ≤ 1). -/
def toPercentOpt (c : Cell) : Option ℚ :=
  (match c with
    | Sum.inl s => parseDecimal (String.mk (s.data.filter (fun ch => !(ch == '%' || ch == ' '))))
    | Sum.inr q => some q).map (fun v => if v ≤ 1 then v * 100 else v)

/-- A row of the normalized table. -/
structure PRow where
  date : Option Timestamp
  energy : Cell
  cost : Cell
  startSoc : Cell
  endSoc : Cell
deriving DecidableEq

/-- A normalized table: per-column presence flags for the optional SOC
columns, plus the rows. -/
structure PTable where
  hasStart : Bool
  hasEnd : Bool
  rows : List PRow

/-- The `_clean_data` energy step: parse `energy_added_kwh` and keep the
row only when the parsed value is > 0 (NaN compares false). -/
def energyStep (r : PRow) : Option PRow :=
  match toNumberCell r.energy with
  | some e => if 0 < e then some { r with energy := Sum.inr e } else none
  | none => none

/-- The `_clean_data` cost step: parse `total_cost` and keep the row only
when the parsed value is ≥ 0 (NaN compares false). -/
def costStep (r : PRow) : Option PRow :=
  match toCurrencyCell r.cost with
  | some c => if 0 ≤ c then some { r with cost := Sum.inr c } else none
  | none => none

def stage1 (l : List PRow) : List PRow := l.filterMap energyStep

def stage2 (l : List PRow) : List PRow := l.filterMap costStep

/-- One SOC column transform of `_clean_data`: `_to_percent(...).clip(0, 100)`
when the column is present, identity otherwise; NaN stays NaN. -/
def socTransform (present : Bool) (c : Cell) : Cell :=
  if present then
    match toPercentOpt c with
    | some v => Sum.inr (max 0 (min 100 v))
    | none => Sum.inl "nan"
  else c

def socMap (hs he : Bool) (r : PRow) : PRow :=
  { r with startSoc := socTransform hs r.startSoc, endSoc := socTransform he r.endSoc }

def stage3 (hs he : Bool) (l : List PRow) : List PRow := l.map (socMap hs he)

/-- The duplicate key of `_clean_data`: the (session_date, energy, cost)
triple. -/
def keyOf (r : PRow) : Option Timestamp × Cell × Cell :=
  (r.date, r.energy, r.cost)

/-- `drop_duplicates(subset=key, keep="first")`: keep the first row with
each key.  The accumulator holds the keys already emitted. -/
def dedupKeysAux {α κ : Type} [DecidableEq κ] (k : α → κ) (seen : List κ) : List α → List α
  | [] => []
  | x :: xs =>
      if k x ∈ seen then dedupKeysAux k seen xs
      else x :: dedupKeysAux k (k x :: seen) xs

def dedupKeys {α κ : Type} [DecidableEq κ] (k : α → κ) (l : List α) : List α :=
  dedupKeysAux k [] l

/-- Embeds `TeslaCSVProcessor._clean_data` on the row list: date parsing
(identity on the modelled parse outcomes), energy parse-and-filter, cost
parse-and-filter, SOC percent-and-clip, then de-duplication on the
(date, energy, cost) key. -/
def cleanRows (hs he : Bool) (rows : List PRow) : List PRow :=
  dedupKeys keyOf (stage3 hs he (stage2 (stage1 rows)))

def cleanTable (t : PTable) : PTable :=
  { t with rows := cleanRows t.hasStart t.hasEnd t.rows }

/-! ### Lemmas about the cleaning stages -/

theorem mem_dedupKeysAux {α κ : Type} [DecidableEq κ] {k : α → κ} {seen : List κ}
    {l : List α} {x : α} (h : x ∈ dedupKeysAux k seen l) : x ∈ l := by
  induction l generalizing seen with
  | nil => simp [dedupKeysAux] at h
  | cons a as ih =>
      simp only [dedupKeysAux] at h
      split at h
      · exact List.mem_cons_of_mem _ (ih h)
      · rcases List.mem_cons.mp h with h1 | h2
        · exact h1 ▸ List.mem_cons_self _ _
        · exact List.mem_cons_of_mem _ (ih h2)

theorem dedupKeysAux_keys {α κ : Type} [DecidableEq κ] (k : α → κ) (seen : List κ)
    (l : List α) :
    ((dedupKeysAux k seen l).map k).Pairwise (fun a b => a ≠ b) ∧
      ∀ b ∈ (dedupKeysAux k seen l).map k, b ∉ seen := by
  induction l generalizing seen with
  | nil => simp [dedupKeysAux]
  | cons a as ih =>
      simp only [dedupKeysAux]
      split
      · exact ⟨(ih seen).1, (ih seen).2⟩
      · rename_i hnot
        refine ⟨List.pairwise_cons.mpr ⟨?_, (ih (k a :: seen)).1⟩, ?_⟩
        · intro b hb heq
          exact (ih (k a :: seen)).2 b hb (heq ▸ List.mem_cons_self _ _)
        · intro b hb
          rcases List.mem_cons.mp hb with h1 | h2
          · exact h1 ▸ hnot
          · intro hbseen
            exact (ih (k a :: seen)).2 b h2 (List.mem_cons_of_mem _ hbseen)

theorem dedupKeys_pairwise {α κ : Type} [DecidableEq κ] (k : α → κ) (l : List α) :
    ((dedupKeys k l).map k).Pairwise (fun a b => a ≠ b) :=
  (dedupKeysAux_keys k [] l).1

theorem dedupKeysAux_eq_self {α κ : Type} [DecidableEq κ] {k : α → κ} {seen : List κ}
    {l : List α} (hseen : ∀ a ∈ l, k a ∉ seen)
    (hpair : (l.map k).Pairwise (fun a b => a ≠ b)) :
    dedupKeysAux k seen l = l := by
  induction l generalizing seen with
  | nil => simp [dedupKeysAux]
  | cons a as ih =>
      have hka : k a ∉ seen := hseen a (List.mem_cons_self _ _)
      rw [List.map_cons] at hpair
      have hp := List.pairwise_cons.mp hpair
      simp only [dedupKeysAux, if_neg hka]
      congr 1
      refine ih ?_ hp.2
      intro b hb hmem
      rcases List.mem_cons.mp hmem with h1 | h2
      · exact hp.1 (k b) (List.mem_map_of_mem k hb) h1.symm
      · exact hseen b (List.mem_cons_of_mem _ hb) h2

theorem dedupKeys_eq_self {α κ : Type} [DecidableEq κ] {k : α → κ} {l : List α}
    (hpair : (l.map k).Pairwise (fun a b => a ≠ b)) :
    dedupKeys k l = l :=
  dedupKeysAux_eq_self (by simp) hpair

theorem dedupKeysAux_repr {α κ : Type} [DecidableEq κ] {k : α → κ} {seen : List κ}
    {l : List α} {a : α} (ha : a ∈ l) (hka : k a ∉ seen) :
    ∃ b ∈ dedupKeysAux k seen l, k b = k a := by
  induction l generalizing seen with
  | nil => cases ha
  | cons x xs ih =>
      simp only [dedupKeysAux]
      rcases List.mem_cons.mp ha with hax | haxs
      · subst hax
        rw [if_neg hka]
        exact ⟨a, List.mem_cons_self _ _, rfl⟩
      · split
        · exact ih haxs hka
        · by_cases hk : k a = k x
          · exact ⟨x, List.mem_cons_self _ _, hk.symm⟩
          · rcases ih haxs (by
                intro hmem
                rcases List.mem_cons.mp hmem with h1 | h2
                · exact hk h1
                · exact hka h2) with ⟨b, hb, hkb⟩
            exact ⟨b, List.mem_cons_of_mem _ hb, hkb⟩

theorem dedupKeys_repr {α κ : Type} [DecidableEq κ] {k : α → κ} {l : List α} {a : α}
    (ha : a ∈ l) : ∃ b ∈ dedupKeys k l, k b = k a :=
  dedupKeysAux_repr ha (by simp)

theorem energyStep_some {a r : PRow} (h : energyStep a = some r) :
    (∃ e, r.energy = Sum.inr e ∧ 0 < e) ∧ r.cost = a.cost ∧ r.date = a.date ∧
      r.startSoc = a.startSoc ∧ r.endSoc = a.endSoc := by
  unfold energyStep at h
  split at h
  · rename_i e he
    split at h
    · rename_i hpos
      cases h
      exact ⟨⟨e, rfl, hpos⟩, rfl, rfl, rfl, rfl⟩
    · cases h
  · cases h

theorem costStep_some {a r : PRow} (h : costStep a = some r) :
    (∃ c, r.cost = Sum.inr c ∧ 0 ≤ c) ∧ r.energy = a.energy ∧ r.date = a.date ∧
      r.startSoc = a.startSoc ∧ r.endSoc = a.endSoc := by
  unfold costStep at h
  split at h
  · rename_i c hc
    split at h
    · rename_i hpos
      cases h
      exact ⟨⟨c, rfl, hpos⟩, rfl, rfl, rfl, rfl⟩
    · cases h
  · cases h

/-- SOC values retained by the cleaner are NaN or clipped into [0, 100]. -/
def socOK (c : Cell) : Prop :=
  c = Sum.inl "nan" ∨ ∃ s, c = Sum.inr s ∧ 0 ≤ s ∧ s ≤ 100

theorem socTransform_ok (c : Cell) : socOK (socTransform true c) := by
  unfold socTransform
  simp only [if_pos]
  cases htp : toPercentOpt c with
  | none => exact Or.inl rfl
  | some v =>
      refine Or.inr ⟨max 0 (min 100 v), rfl, le_max_left _ _, ?_⟩
      exact max_le (by norm_num) (min_le_left _ _)

/-- Every row surviving the energy and cost filters has a positive numeric
energy and a nonnegative numeric cost; the SOC fields of present columns
are NaN or in [0, 100]. -/
theorem mem_preDedup {hs he : Bool} {rows : List PRow} {r : PRow}
    (h : r ∈ stage3 hs he (stage2 (stage1 rows))) :
    (∃ e, r.energy = Sum.inr e ∧ 0 < e) ∧ (∃ c, r.cost = Sum.inr c ∧ 0 ≤ c) ∧
      (hs = true → socOK r.startSoc) ∧ (he = true → socOK r.endSoc) := by
  rcases List.mem_map.mp h with ⟨r2, hr2, rfl⟩
  rcases List.mem_filterMap.mp hr2 with ⟨r1, hr1, hcost⟩
  rcases List.mem_filterMap.mp hr1 with ⟨r0, _, henergy⟩
  rcases costStep_some hcost with ⟨⟨c, hc, hc0⟩, henergyeq, _, _, _⟩
  rcases energyStep_some henergy with ⟨⟨e, he', he0⟩, _, _, _, _⟩
  refine ⟨⟨e, ?_, he0⟩, ⟨c, ?_, hc0⟩, ?_, ?_⟩
  · show r2.energy = Sum.inr e
    rw [henergyeq, he']
  · exact hc
  · intro hhs
    show socOK (socTransform hs r2.startSoc)
    rw [hhs]; exact socTransform_ok _
  · intro hhe
    show socOK (socTransform he r2.endSoc)
    rw [hhe]; exact socTransform_ok _

/-- Claim C4 (counterexample): `_clean_data` parses dates with
`utc=False`, so a retained row whose date carried a timezone offset keeps
it — the cleaned data is not timezone-naive. -/
theorem c4_clean_counterexample :
    ((cleanTable
        { hasStart := false, hasEnd := false,
          rows := [{ date := some { utcMin := 0, ym := 0, hour := 0, wkday := 0, tz := some 300 },
                     energy := Sum.inl "10", cost := Sum.inl "2",
                     startSoc := Sum.inl "nan", endSoc := Sum.inl "nan" }] }).rows.all
      (fun r => match r.date with | some ts => ts.tz.isNone | none => true)) = false := by
  with_unfolding_all rfl

/-- Claim C4 (amended): after cleaning, every retained row has
energy_added_kwh > 0 and total_cost ≥ 0; SOC values of present SOC
columns are missing or lie in [0, 100]; rows with an identical
(session_date, energy_added_kwh, total_cost) triple are collapsed to one
(the retained keys are pairwise distinct, and every row surviving the
filters has a retained representative with its key).  Dates are kept as
parsed: `utc=False` preserves timezone offsets rather than converting to
UTC and stripping them. -/
theorem c4_clean_amended (t : PTable) :
    (∀ r ∈ (cleanTable t).rows,
      (∃ e, r.energy = Sum.inr e ∧ 0 < e) ∧ (∃ c, r.cost = Sum.inr c ∧ 0 ≤ c) ∧
        (t.hasStart = true → socOK r.startSoc) ∧ (t.hasEnd = true → socOK r.endSoc)) ∧
    (((cleanTable t).rows.map keyOf).Pairwise (fun a b => a ≠ b)) ∧
    (∀ r ∈ stage3 t.hasStart t.hasEnd (stage2 (stage1 t.rows)),
      ∃ r2 ∈ (cleanTable t).rows, keyOf r2 = keyOf r) := by
  refine ⟨?_, ?_, ?_⟩
  · intro r hr
    exact mem_preDedup (mem_dedupKeysAux hr)
  · exact dedupKeys_pairwise _ _
  · intro r hr
    exact dedupKeys_repr hr

/-- Concrete input table for the C4 witness. -/
def tC4 : PTable :=
  { hasStart := true, hasEnd := true,
    rows := [{ date := none, energy := Sum.inl "10", cost := Sum.inl "£2.50",
               startSoc := Sum.inl "0.5", endSoc := Sum.inl "101" }] }

/-- The row `tC4` cleans to: energy 10, cost 2.5 (currency symbol
stripped), start SOC 0.5 scaled to 50, end SOC 101 clipped to 100. -/
def rowC4 : PRow :=
  { date := none, energy := Sum.inr 10, cost := Sum.inr (5 / 2),
    startSoc := Sum.inr 50, endSoc := Sum.inr 100 }

/-- Claim C4 witness: concrete run of the amended theorem. -/
theorem c4_clean_witness :
    (∃ e, rowC4.energy = Sum.inr e ∧ 0 < e) ∧
      (∃ c, rowC4.cost = Sum.inr c ∧ 0 ≤ c) ∧
      (tC4.hasStart = true → socOK rowC4.startSoc) ∧
      (tC4.hasEnd = true → socOK rowC4.endSoc) := by
  have hrows : (cleanTable tC4).rows = [rowC4] := by with_unfolding_all rfl
  exact (c4_clean_amended tC4).1 rowC4 (hrows ▸ List.mem_singleton.mpr rfl)

/-! ### Idempotence of the cleaner (claim C5) -/

theorem filterMap_id_of {α : Type} {f : α → Option α} {l : List α}
    (h : ∀ x ∈ l, f x = some x) : l.filterMap f = l := by
  induction l with
  | nil => rfl
  | cons a as ih =>
      simp only [List.filterMap_cons, h a (List.mem_cons_self _ _)]
      rw [ih (fun x hx => h x (List.mem_cons_of_mem _ hx))]

theorem setEnergy_eq {r : PRow} {e : ℚ} (h : r.energy = Sum.inr e) :
    ({ r with energy := Sum.inr e } : PRow) = r := by
  cases r with
  | mk d en c s1 s2 =>
      have h2 : en = Sum.inr e := h
      rw [h2]

theorem setCost_eq {r : PRow} {c : ℚ} (h : r.cost = Sum.inr c) :
    ({ r with cost := Sum.inr c } : PRow) = r := by
  cases r with
  | mk d en co s1 s2 =>
      have h2 : co = Sum.inr c := h
      rw [h2]

/-- A row that already carries a positive numeric energy passes the energy
step unchanged (re-parsing a numeric column is the identity). -/
theorem energyStep_self {r : PRow} {e : ℚ} (h : r.energy = Sum.inr e) (h0 : 0 < e) :
    energyStep r = some r := by
  unfold energyStep
  rw [h]
  show (if 0 < e then some ({ r with energy := Sum.inr e } : PRow) else none) = some r
  rw [if_pos h0, setEnergy_eq h]

theorem costStep_self {r : PRow} {c : ℚ} (h : r.cost = Sum.inr c) (h0 : 0 ≤ c) :
    costStep r = some r := by
  unfold costStep
  rw [h]
  show (if 0 ≤ c then some ({ r with cost := Sum.inr c } : PRow) else none) = some r
  rw [if_pos h0, setCost_eq h]

/-- The SOC transform does not change the de-duplication key. -/
theorem stage3_keys (hs he : Bool) (l : List PRow) :
    (stage3 hs he l).map keyOf = l.map keyOf := by
  induction l with
  | nil => rfl
  | cons a as ih =>
      show keyOf (socMap hs he a) :: (stage3 hs he as).map keyOf = keyOf a :: as.map keyOf
      rw [ih]
      rfl

/-- Claim C5: cleaning is idempotent in row count — running `_clean_data`
a second time on the output of a first run yields the same number of
rows.  (The energy and cost columns re-parse to themselves, every row
still passes both filters, the SOC transform does not touch the
de-duplication key, and the keys are already pairwise distinct.) -/
theorem c5_clean_idempotent_rows (t : PTable) :
    ((cleanTable (cleanTable t)).rows).length = ((cleanTable t).rows).length := by
  show (cleanRows t.hasStart t.hasEnd (cleanRows t.hasStart t.hasEnd t.rows)).length =
    (cleanRows t.hasStart t.hasEnd t.rows).length
  have hC : ∀ r ∈ cleanRows t.hasStart t.hasEnd t.rows,
      (∃ e, r.energy = Sum.inr e ∧ 0 < e) ∧ (∃ c, r.cost = Sum.inr c ∧ 0 ≤ c) := by
    intro r hr
    have h := mem_preDedup (mem_dedupKeysAux hr)
    exact ⟨h.1, h.2.1⟩
  have h1 : stage1 (cleanRows t.hasStart t.hasEnd t.rows) =
      cleanRows t.hasStart t.hasEnd t.rows := by
    refine filterMap_id_of ?_
    intro r hr
    rcases (hC r hr).1 with ⟨e, he, he0⟩
    exact energyStep_self he he0
  have h2 : stage2 (cleanRows t.hasStart t.hasEnd t.rows) =
      cleanRows t.hasStart t.hasEnd t.rows := by
    refine filterMap_id_of ?_
    intro r hr
    rcases (hC r hr).2 with ⟨c, hc, hc0⟩
    exact costStep_self hc hc0
  show (dedupKeys keyOf (stage3 t.hasStart t.hasEnd
      (stage2 (stage1 (cleanRows t.hasStart t.hasEnd t.rows))))).length =
    (cleanRows t.hasStart t.hasEnd t.rows).length
  rw [h1, h2]
  have hkeys : ((stage3 t.hasStart t.hasEnd
      (cleanRows t.hasStart t.hasEnd t.rows)).map keyOf).Pairwise (fun a b => a ≠ b) := by
    rw [stage3_keys]
    exact dedupKeys_pairwise keyOf _
  rw [dedupKeys_eq_self hkeys]
  show ((cleanRows t.hasStart t.hasEnd t.rows).map (socMap t.hasStart t.hasEnd)).length = _
  exact List.length_map _ _

/-! ## Format detection (`TeslaCSVProcessor._detect_format`)

The input is the list of raw column headers.  The named-format rules are
subset tests on literal header names; the generic sniff looks for an
energy-like and a cost-like header by case-insensitive substring. -/

/-- Whether the first list is an initial segment of the second. -/
def leadsWith : List Char → List Char → Bool
  | [], _ => true
  | _ :: _, [] => false
  | a :: as, b :: bs => a == b && leadsWith as bs

/-- Whether the first list occurs as a contiguous run inside the second. -/
def hasSub (n : List Char) : List Char → Bool
  | [] => n.isEmpty
  | c :: cs => leadsWith n (c :: cs) || hasSub n cs

/-- Python's `needle in haystack` on strings. -/
def containsSub (needle hay : String) : Bool :=
  hasSub needle.data hay.data

/-- Python's `str.lower` (ASCII letters suffice for the header keywords). -/
def lowerStr (s : String) : String :=
  String.mk (s.data.map Char.toLower)

/-- A header matching the generic sniff's energy keywords. -/
def energyLikeB (c : String) : Bool :=
  ["kwh", "energy", "delivered", "added"].any (fun k => containsSub k (lowerStr c))

/-- A header matching the generic sniff's cost keywords. -/
def costLikeB (c : String) : Bool :=
  ["cost", "price", "fee", "charge"].any (fun k => containsSub k (lowerStr c))

/-- Embeds `TeslaCSVProcessor._detect_format`: the three named-format
rules in order, then the generic energy+cost sniff, else the
unrecognized-format error. -/
def detectFormat (cols : List String) : Except String String :=
  if cols.contains "Energy Added (kWh)" && cols.contains "Starting SOC" then
    Except.ok "tesla_mobile"
  else if cols.contains "Energy Delivered (kWh)" && cols.contains "Charge Cost" then
    Except.ok "tesla_web"
  else if cols.contains "kWh" && cols.contains "Start %" && cols.contains "End %" then
    Except.ok "teslafi"
  else if cols.any energyLikeB && cols.any costLikeB then
    Except.ok "generic"
  else
    Except.error "Unrecognized CSV format; headers do not match expected patterns"

/-- Claim C9 (counterexample): the header set
{"Energy Added (kWh)", "Starting SOC"} has no cost-like column, yet the
detector classifies it as the mobile format instead of raising the
unrecognized-format error the claim's last clause predicts. -/
theorem c9_detect_counterexample :
    (["Energy Added (kWh)", "Starting SOC"].any costLikeB) = false ∧
    detectFormat ["Energy Added (kWh)", "Starting SOC"] = Except.ok "tesla_mobile" :=
  ⟨by with_unfolding_all rfl, by with_unfolding_all rfl⟩

/-- Claim C9 (amended): the rules are checked in fixed order with first
match winning: a header set containing both "Energy Added (kWh)" and
"Starting SOC" is mobile regardless of other headers; {"kWh", "Cost"}
alone is generic; and a header set matching none of the three named
formats that lacks an energy-like or a cost-like column raises the
unrecognized-format error. -/
theorem c9_detect_amended :
    (∀ cols : List String, cols.contains "Energy Added (kWh)" = true →
      cols.contains "Starting SOC" = true → detectFormat cols = Except.ok "tesla_mobile") ∧
    detectFormat ["kWh", "Cost"] = Except.ok "generic" ∧
    (∀ cols : List String,
      (cols.contains "Energy Added (kWh)" && cols.contains "Starting SOC") = false →
      (cols.contains "Energy Delivered (kWh)" && cols.contains "Charge Cost") = false →
      (cols.contains "kWh" && cols.contains "Start %" && cols.contains "End %") = false →
      (cols.any energyLikeB = false ∨ cols.any costLikeB = false) →
      detectFormat cols =
        Except.error "Unrecognized CSV format; headers do not match expected patterns") := by
  refine ⟨?_, by with_unfolding_all rfl, ?_⟩
  · intro cols h1 h2
    unfold detectFormat
    rw [h1, h2]
    rfl
  · intro cols h1 h2 h3 h4
    unfold detectFormat
    rw [h1, h2, h3]
    rcases h4 with h4 | h4
    · rw [h4]
      rfl
    · rw [h4, Bool.and_false]
      rfl

/-- Claim C9 witness: the amended theorem at concrete header sets. -/
theorem c9_detect_witness :
    detectFormat ["Energy Added (kWh)", "Starting SOC", "Cost"] = Except.ok "tesla_mobile" ∧
    detectFormat ["Foo"] =
      Except.error "Unrecognized CSV format; headers do not match expected patterns" :=
  ⟨c9_detect_amended.1 ["Energy Added (kWh)", "Starting SOC", "Cost"]
      (by with_unfolding_all rfl) (by with_unfolding_all rfl),
   c9_detect_amended.2.2 ["Foo"] (by with_unfolding_all rfl) (by with_unfolding_all rfl)
      (by with_unfolding_all rfl) (Or.inl (by with_unfolding_all rfl))⟩

/-! ## The processor pipeline (`TeslaCSVProcessor.process_csv`)

The read step is abstracted as the source itself: a source is the read
outcome, either a raised error (`Except.error`) or a raw frame.  A raw
frame carries the raw headers (driving format detection) plus the
normalized table; the column-rename step is abstracted into presence
flags for the three required normalized columns, which is all
`_validate_structure` inspects.  The metadata dictionary of the result is
omitted from the embedding (no claim depends on it), and the
missing-columns issue text is simplified to its fixed prefix. -/

inductive DataQuality where
  | excellent
  | good
  | fair
  | poor
deriving DecidableEq

structure ProcessingResult where
  success : Bool
  data : Option PTable
  quality : DataQuality
  issues : List String

/-- `pd.notna` on a post-cleaning cell (missing values are NaN). -/
def notNaCell : Cell → Bool
  | Sum.inr _ => true
  | Sum.inl s => !(s == "nan")

/-- Embeds `TeslaCSVProcessor._assess_data_quality` on the embedded
schema: completeness of the three required columns and of the present
optional (SOC) columns, blended 70/30 and mapped through the quality
thresholds. -/
def assessQuality (t : PTable) : DataQuality :=
  if t.rows.isEmpty then DataQuality.poor
  else
    let n : ℚ := t.rows.length
    let fDate := ((t.rows.filter (fun r => r.date.isSome)).length : ℚ) / n
    let fEnergy := ((t.rows.filter (fun r => notNaCell r.energy)).length : ℚ) / n
    let fCost := ((t.rows.filter (fun r => notNaCell r.cost)).length : ℚ) / n
    let req := (fDate + fEnergy + fCost) / 3
    let fS := ((t.rows.filter (fun r => notNaCell r.startSoc)).length : ℚ) / n
    let fE := ((t.rows.filter (fun r => notNaCell r.endSoc)).length : ℚ) / n
    let opt :=
      match t.hasStart, t.hasEnd with
      | true, true => (fS + fE) / 2
      | true, false => fS
      | false, true => fE
      | false, false => 0
    let overall := 7 / 10 * req + 3 / 10 * opt
    if 95 / 100 ≤ overall then DataQuality.excellent
    else if 85 / 100 ≤ overall then DataQuality.good
    else if 70 / 100 ≤ overall then DataQuality.fair
    else DataQuality.poor

/-- A raw frame as produced by `_read_csv_safely`. -/
structure PRaw where
  headers : List String
  hasDateCol : Bool
  hasEnergyCol : Bool
  hasCostCol : Bool
  tbl : PTable

/-- `TeslaCSVProcessor._fail`: failed result, no data, poor quality. -/
def failResult (issues : List String) : ProcessingResult :=
  { success := false, data := none, quality := DataQuality.poor, issues := issues }

/-- The body of the `try` block of `process_csv`: empty check, format
detection (which may raise), structure validation, cleaning, quality
assessment.  Raised errors propagate as `Except.error`. -/
def runPipeline (raw : PRaw) : Except String ProcessingResult :=
  if raw.tbl.rows.isEmpty then Except.ok (failResult ["File contains no rows"])
  else
    match detectFormat raw.headers with
    | Except.error e => Except.error e
    | Except.ok _ =>
        if raw.hasDateCol && raw.hasEnergyCol && raw.hasCostCol then
          let cleaned := cleanTable raw.tbl
          Except.ok { success := true, data := some cleaned,
                      quality := assessQuality cleaned, issues := [] }
        else Except.ok (failResult ["Missing required columns"])

/-- Embeds `TeslaCSVProcessor.process_csv`: run the pipeline and catch
any raised error at the top level, converting it into a failed result
whose issues carry the exception text. -/
def processCsv (src : Except String PRaw) : ProcessingResult :=
  match src with
  | Except.error e =>
      { success := false, data := none, quality := DataQuality.poor,
        issues := ["Processing error: " ++ e] }
  | Except.ok raw =>
      match runPipeline raw with
      | Except.ok r => r
      | Except.error e =>
          { success := false, data := none, quality := DataQuality.poor,
            issues := ["Processing error: " ++ e] }

/-- The internal exception (if any) a source provokes: a read failure, or
the unrecognized-format error; the other paths return results instead of
raising. -/
def internalError (src : Except String PRaw) : Option String :=
  match src with
  | Except.error e => some e
  | Except.ok raw =>
      if raw.tbl.rows.isEmpty then none
      else
        match detectFormat raw.headers with
        | Except.error e => some e
        | Except.ok _ => none

/-- Claim C3: `process_csv` always returns a `ProcessingResult` (the
embedded function is total), and whenever a pipeline step raises
internally, the exception is caught at the top level and converted into a
failed result whose issues list carries the exception text. -/
theorem c3_process_csv_total (src : Except String PRaw) (e : String)
    (h : internalError src = some e) :
    processCsv src =
      { success := false, data := none, quality := DataQuality.poor,
        issues := ["Processing error: " ++ e] } := by
  unfold internalError at h
  match src with
  | Except.error e2 =>
      simp only [Option.some.injEq] at h
      subst h
      rfl
  | Except.ok raw =>
      simp only [] at h
      split at h
      · exact absurd h (by simp)
      · rename_i hne
        split at h
        · rename_i e3 hdf
          simp only [Option.some.injEq] at h
          subst h
          have hrp : runPipeline raw = Except.error e3 := by
            unfold runPipeline
            rw [if_neg hne, hdf]
          show (match runPipeline raw with
            | Except.ok r => r
            | Except.error e =>
                { success := false, data := none, quality := DataQuality.poor,
                  issues := ["Processing error: " ++ e] } : ProcessingResult) = _
          rw [hrp]
        · exact absurd h (by simp)

/-- Claim C3 witness: a read failure becomes a failed result carrying the
exception text. -/
theorem c3_process_csv_witness :
    processCsv (Except.error "read failed") =
      { success := false, data := none, quality := DataQuality.poor,
        issues := ["Processing error: " ++ "read failed"] } :=
  c3_process_csv_total (Except.error "read failed") "read failed" rfl

theorem runPipeline_ok {raw : PRaw} {r : ProcessingResult}
    (h : runPipeline raw = Except.ok r) :
    (r.success = false → r.data = none ∧ r.quality = DataQuality.poor) ∧
    (r.success = true → r.data.isSome = true) := by
  unfold runPipeline at h
  split at h
  · cases h
    exact ⟨fun _ => ⟨rfl, rfl⟩, fun hh => Bool.noConfusion hh⟩
  · split at h
    · exact Except.noConfusion h
    · split at h
      · cases h
        exact ⟨fun hh => Bool.noConfusion hh, fun _ => rfl⟩
      · cases h
        exact ⟨fun _ => ⟨rfl, rfl⟩, fun hh => Bool.noConfusion hh⟩

/-- Claim C10: every result of `process_csv` with `success = false` has
no data and poor quality, and every result with `success = true` carries
a data table. -/
theorem c10_result_invariant (src : Except String PRaw) :
    ((processCsv src).success = false →
      (processCsv src).data = none ∧ (processCsv src).quality = DataQuality.poor) ∧
    ((processCsv src).success = true → (processCsv src).data.isSome = true) := by
  rcases src with e | raw
  · exact ⟨fun _ => ⟨rfl, rfl⟩, fun h => Bool.noConfusion h⟩
  · rcases hrp : runPipeline raw with e | r
    · have h2 : processCsv (Except.ok raw) =
          { success := false, data := none, quality := DataQuality.poor,
            issues := ["Processing error: " ++ e] } := by
        show (match runPipeline raw with
          | Except.ok r => r
          | Except.error e =>
              { success := false, data := none, quality := DataQuality.poor,
                issues := ["Processing error: " ++ e] } : ProcessingResult) = _
        rw [hrp]
      rw [h2]
      exact ⟨fun _ => ⟨rfl, rfl⟩, fun h => Bool.noConfusion h⟩
    · have h2 : processCsv (Except.ok raw) = r := by
        show (match runPipeline raw with
          | Except.ok r => r
          | Except.error e =>
              { success := false, data := none, quality := DataQuality.poor,
                issues := ["Processing error: " ++ e] } : ProcessingResult) = _
        rw [hrp]
      rw [h2]
      exact runPipeline_ok hrp

/-- Claim C10 witness: the invariant at a concrete failing source. -/
theorem c10_result_witness :
    (processCsv (Except.error "boom")).data = none ∧
    (processCsv (Except.error "boom")).quality = DataQuality.poor :=
  (c10_result_invariant (Except.error "boom")).1 rfl

/-! ## Efficiency metrics (`ChargingEfficiencyCalculator`)

Floats become exact rationals.  `calculate_efficiency_metrics` raises
`ValueError`, embedded as `Except.error`. -/

structure EfficiencyMetric where
  kwhPerDollar : ℚ
  costPerKwh : ℚ
  chargingSpeedKw : Option ℚ
  efficiencyRating : String
deriving DecidableEq

/-- The ordered rating table `EFFICIENCY_THRESHOLDS`; the unbounded
"poor" entry carries `none` in place of `float("inf")`. -/
def EFFICIENCY_THRESHOLDS : List (String × Option ℚ) :=
  [("excellent", some (12 / 100)), ("good", some (20 / 100)),
   ("fair", some (35 / 100)), ("poor", none)]

/-- First label of the table whose bound the value does not exceed. -/
def firstRating : List (String × Option ℚ) → ℚ → String
  | [], _ => "poor"
  | (label, t) :: rest, cpk =>
      match t with
      | some th => if cpk ≤ th then label else firstRating rest cpk
      | none => label

/-- Embeds `ChargingEfficiencyCalculator._rate_efficiency`. -/
def rateEfficiency (cpk : ℚ) : String :=
  firstRating EFFICIENCY_THRESHOLDS cpk

/-- The claim's reading of the threshold table, written independently:
excellent ≤ 0.12, good ≤ 0.20, fair ≤ 0.35, else poor. -/
def specRating (cpk : ℚ) : String :=
  if cpk ≤ 12 / 100 then "excellent"
  else if cpk ≤ 20 / 100 then "good"
  else if cpk ≤ 35 / 100 then "fair"
  else "poor"

/-- Embeds `ChargingEfficiencyCalculator.calculate_efficiency_metrics`.
The source's `if energy_kwh > 0 else math.inf` conditional for
cost_per_kwh is unreachable after the guard, so the guarded division is
used directly.  `duration_minutes and duration_minutes > 0` is truthy
exactly for a present, strictly positive duration. -/
def calculateEfficiencyMetrics (energyKwh cost : ℚ) (durationMinutes : Option ℚ) :
    Except String EfficiencyMetric :=
  if energyKwh ≤ 0 ∨ cost < 0 then
    Except.error "energy_kwh must be > 0 and cost must be >= 0"
  else
    let costPerKwh := cost / energyKwh
    let kwhPerDollar := if 0 < cost then energyKwh / cost else 0
    let speedKw :=
      match durationMinutes with
      | some d => if 0 < d then some (energyKwh * 60 / d) else none
      | none => none
    Except.ok { kwhPerDollar := kwhPerDollar, costPerKwh := costPerKwh,
                chargingSpeedKw := speedKw, efficiencyRating := rateEfficiency costPerKwh }

theorem rateEfficiency_eq_spec (x : ℚ) : rateEfficiency x = specRating x := rfl

/-- Claim C6: `calculate_efficiency_metrics` raises exactly when
energy ≤ 0 or cost < 0; otherwise cost_per_kwh = cost/energy,
kwh_per_dollar = energy/cost for positive cost and exactly 0 for zero
cost, charging_speed_kw = energy*60/duration for positive present
duration and absent otherwise, and the rating is the first label of the
ordered threshold table whose bound cost_per_kwh does not exceed. -/
theorem c6_metrics_spec (e c : ℚ) (d : Option ℚ) :
    ((calculateEfficiencyMetrics e c d).toOption = none ↔ (e ≤ 0 ∨ c < 0)) ∧
    (∀ m, calculateEfficiencyMetrics e c d = Except.ok m →
      m.costPerKwh = c / e ∧
      m.kwhPerDollar = (if 0 < c then e / c else 0) ∧
      (c = 0 → m.kwhPerDollar = 0) ∧
      m.chargingSpeedKw = (match d with
        | some dd => if 0 < dd then some (e * 60 / dd) else none
        | none => none) ∧
      m.efficiencyRating = specRating m.costPerKwh) := by
  by_cases hcond : e ≤ 0 ∨ c < 0
  · constructor
    · unfold calculateEfficiencyMetrics
      rw [if_pos hcond]
      simp [Except.toOption, hcond]
    · intro m hm
      unfold calculateEfficiencyMetrics at hm
      rw [if_pos hcond] at hm
      exact Except.noConfusion hm
  · constructor
    · unfold calculateEfficiencyMetrics
      rw [if_neg hcond]
      simp [Except.toOption, hcond]
    · intro m hm
      unfold calculateEfficiencyMetrics at hm
      rw [if_neg hcond] at hm
      simp only [Except.ok.injEq] at hm
      subst hm
      refine ⟨rfl, rfl, ?_, rfl, rateEfficiency_eq_spec _⟩
      intro hc0
      subst hc0
      simp

/-- The metric produced by the C6 witness input (10 kWh, $2, 30 min). -/
def mC6 : EfficiencyMetric :=
  { kwhPerDollar := 5, costPerKwh := 1 / 5, chargingSpeedKw := some 20,
    efficiencyRating := "good" }

/-- Claim C6 witness: 10 kWh for $2 over 30 minutes gives cost/kWh 0.2,
5 kWh per dollar, 20 kW, rating "good". -/
theorem c6_metrics_witness :
    mC6.costPerKwh = (2 : ℚ) / 10 ∧
    mC6.kwhPerDollar = (if (0 : ℚ) < 2 then (10 : ℚ) / 2 else 0) ∧
    ((2 : ℚ) = 0 → mC6.kwhPerDollar = 0) ∧
    mC6.chargingSpeedKw = (match (some 30 : Option ℚ) with
      | some dd => if 0 < dd then some ((10 : ℚ) * 60 / dd) else none
      | none => none) ∧
    mC6.efficiencyRating = specRating mC6.costPerKwh :=
  (c6_metrics_spec 10 2 (some 30)).2 mC6 (by with_unfolding_all rfl)

/-! ## Recommendations (`ChargingEfficiencyCalculator._recommendations`)

The produced recommendation strings are modelled as structured items (the
f-string rendering is not re-implemented; each constructor carries the
values interpolated into the corresponding message).  The `df` parameter
of `_recommendations` is unused in the source and dropped here. -/

structure ChargingPattern where
  avgSessionEnergy : ℚ
  preferredChargerTypes : List String
  peakUsageHours : List ℤ
  weekendVsWeekdayQuot : ℚ
  avgSocStart : Option ℚ
  avgSocEnd : Option ℚ
deriving DecidableEq

inductive RecItem where
  | highAvgCost (rate : ℚ)
  | priceGap (bestLabel worstLabel : String) (bestRate worstRate : ℚ)
  | cheapLocations (locs : List (String × ℚ))
  | lowStartSoc (v : ℚ)
  | highEndSoc (v : ℚ)
  | peakHoursShift
  | smallSessions (v : ℚ)
deriving DecidableEq

def RecItem.isGap : RecItem → Bool
  | RecItem.priceGap _ _ _ _ => true
  | _ => false

structure EfficiencyAnalysis where
  overallEfficiency : EfficiencyMetric
  byChargerType : List (String × EfficiencyMetric)
  byLocation : List (String × EfficiencyMetric)
  temporalTrends : List (String × ℚ)
  chargingPatterns : ChargingPattern
  recommendations : List RecItem
  costSavingsPotential : ℚ

/-- Python's `min(values, key=cost_per_kwh)`: first value attaining the
minimum. -/
def minByCpk (m0 : EfficiencyMetric) (l : List EfficiencyMetric) : EfficiencyMetric :=
  l.foldl (fun acc x => if x.costPerKwh < acc.costPerKwh then x else acc) m0

/-- Python's `max(values, key=cost_per_kwh)`: first value attaining the
maximum. -/
def maxByCpk (m0 : EfficiencyMetric) (l : List EfficiencyMetric) : EfficiencyMetric :=
  l.foldl (fun acc x => if acc.costPerKwh < x.costPerKwh then x else acc) m0

/-- `next(k for k, v in items if v == m)`: label of the first entry whose
metric equals `m`. -/
def labelFor (a : EfficiencyAnalysis) (m : EfficiencyMetric) : String :=
  ((a.byChargerType.find? (fun p => p.2 == m)).map Prod.fst).getD ""

/-- Stable sort of the by-location entries by cost per kWh (Python
`sorted(key=...)`). -/
def insertLoc (x : String × EfficiencyMetric) :
    List (String × EfficiencyMetric) → List (String × EfficiencyMetric)
  | [] => [x]
  | y :: ys => if y.2.costPerKwh < x.2.costPerKwh then y :: insertLoc x ys else x :: y :: ys

def sortLocs : List (String × EfficiencyMetric) → List (String × EfficiencyMetric)
  | [] => []
  | x :: xs => insertLoc x (sortLocs xs)

/-- The charger-type price-gap block: with a nonempty breakdown, compare
the cheapest and the most expensive category and emit the note only when
the gap strictly exceeds $0.10/kWh. -/
def gapRecs (a : EfficiencyAnalysis) : List RecItem :=
  match a.byChargerType.map Prod.snd with
  | [] => []
  | v :: vs =>
      let best := minByCpk v vs
      let worst := maxByCpk v vs
      if 1 / 10 < worst.costPerKwh - best.costPerKwh then
        [RecItem.priceGap (labelFor a best) (labelFor a worst)
          best.costPerKwh worst.costPerKwh]
      else []

def recHighCost (a : EfficiencyAnalysis) : List RecItem :=
  if 1 / 4 < a.overallEfficiency.costPerKwh then
    [RecItem.highAvgCost a.overallEfficiency.costPerKwh]
  else []

def recLocs (a : EfficiencyAnalysis) : List RecItem :=
  if 2 < a.byLocation.length then
    [RecItem.cheapLocations (((sortLocs a.byLocation).take 2).map
      (fun p => (p.1, p.2.costPerKwh)))]
  else []

def recSocStart (a : EfficiencyAnalysis) : List RecItem :=
  match a.chargingPatterns.avgSocStart with
  | some v => if v < 20 then [RecItem.lowStartSoc v] else []
  | none => []

def recSocEnd (a : EfficiencyAnalysis) : List RecItem :=
  match a.chargingPatterns.avgSocEnd with
  | some v => if 90 < v then [RecItem.highEndSoc v] else []
  | none => []

def recPeak (a : EfficiencyAnalysis) : List RecItem :=
  if a.chargingPatterns.peakUsageHours ≠ [] ∧
      a.chargingPatterns.peakUsageHours.any
        (fun h => h == 17 || h == 18 || h == 19 || h == 20) then
    [RecItem.peakHoursShift]
  else []

def recSmall (a : EfficiencyAnalysis) : List RecItem :=
  if a.chargingPatterns.avgSessionEnergy ≠ 0 ∧
      a.chargingPatterns.avgSessionEnergy < 10 then
    [RecItem.smallSessions a.chargingPatterns.avgSessionEnergy]
  else []

/-- Embeds `ChargingEfficiencyCalculator._recommendations`: the blocks in
source order. -/
def recommendationsOf (a : EfficiencyAnalysis) : List RecItem :=
  recHighCost a ++ gapRecs a ++ recLocs a ++ recSocStart a ++ recSocEnd a ++
    recPeak a ++ recSmall a

theorem recHighCost_no_gap {a : EfficiencyAnalysis} {r : RecItem}
    (h : r ∈ recHighCost a) : r.isGap = false := by
  unfold recHighCost at h
  split at h
  · rw [List.mem_singleton.mp h]
    rfl
  · exact absurd h (List.not_mem_nil r)

theorem recLocs_no_gap {a : EfficiencyAnalysis} {r : RecItem}
    (h : r ∈ recLocs a) : r.isGap = false := by
  unfold recLocs at h
  split at h
  · rw [List.mem_singleton.mp h]
    rfl
  · exact absurd h (List.not_mem_nil r)

theorem recSocStart_no_gap {a : EfficiencyAnalysis} {r : RecItem}
    (h : r ∈ recSocStart a) : r.isGap = false := by
  unfold recSocStart at h
  split at h
  · split at h
    · rw [List.mem_singleton.mp h]
      rfl
    · exact absurd h (List.not_mem_nil r)
  · exact absurd h (List.not_mem_nil r)

theorem recSocEnd_no_gap {a : EfficiencyAnalysis} {r : RecItem}
    (h : r ∈ recSocEnd a) : r.isGap = false := by
  unfold recSocEnd at h
  split at h
  · split at h
    · rw [List.mem_singleton.mp h]
      rfl
    · exact absurd h (List.not_mem_nil r)
  · exact absurd h (List.not_mem_nil r)

theorem recPeak_no_gap {a : EfficiencyAnalysis} {r : RecItem}
    (h : r ∈ recPeak a) : r.isGap = false := by
  unfold recPeak at h
  split at h
  · rw [List.mem_singleton.mp h]
    rfl
  · exact absurd h (List.not_mem_nil r)

theorem recSmall_no_gap {a : EfficiencyAnalysis} {r : RecItem}
    (h : r ∈ recSmall a) : r.isGap = false := by
  unfold recSmall at h
  split at h
  · rw [List.mem_singleton.mp h]
    rfl
  · exact absurd h (List.not_mem_nil r)

/-- Claim C8 (amended): with a nonempty by-charger-type breakdown, the
price-gap note (naming the first cheapest and first most expensive
categories with their rates) is emitted exactly when the gap strictly
exceeds $0.10/kWh; at a gap of at most $0.10/kWh — including exactly
$0.10 — no price-gap note appears. -/
theorem c8_gap_amended (a : EfficiencyAnalysis) (v : EfficiencyMetric)
    (vs : List EfficiencyMetric) (h : a.byChargerType.map Prod.snd = v :: vs) :
    ((1 / 10 : ℚ) < (maxByCpk v vs).costPerKwh - (minByCpk v vs).costPerKwh →
      RecItem.priceGap (labelFor a (minByCpk v vs)) (labelFor a (maxByCpk v vs))
        (minByCpk v vs).costPerKwh (maxByCpk v vs).costPerKwh ∈ recommendationsOf a) ∧
    ((maxByCpk v vs).costPerKwh - (minByCpk v vs).costPerKwh ≤ (1 / 10 : ℚ) →
      ∀ r ∈ recommendationsOf a, r.isGap = false) := by
  constructor
  · intro hd
    have hg : gapRecs a =
        [RecItem.priceGap (labelFor a (minByCpk v vs)) (labelFor a (maxByCpk v vs))
          (minByCpk v vs).costPerKwh (maxByCpk v vs).costPerKwh] := by
      unfold gapRecs
      rw [h]
      show (if 1 / 10 < (maxByCpk v vs).costPerKwh - (minByCpk v vs).costPerKwh then
          [RecItem.priceGap (labelFor a (minByCpk v vs)) (labelFor a (maxByCpk v vs))
            (minByCpk v vs).costPerKwh (maxByCpk v vs).costPerKwh]
        else []) = _
      rw [if_pos hd]
    have h1 : RecItem.priceGap (labelFor a (minByCpk v vs)) (labelFor a (maxByCpk v vs))
        (minByCpk v vs).costPerKwh (maxByCpk v vs).costPerKwh ∈
          recHighCost a ++ gapRecs a :=
      List.mem_append_right _ (by rw [hg]; exact List.mem_singleton.mpr rfl)
    unfold recommendationsOf
    exact List.mem_append_left _ (List.mem_append_left _ (List.mem_append_left _
      (List.mem_append_left _ (List.mem_append_left _ h1))))
  · intro hd r hr
    have hg : gapRecs a = [] := by
      unfold gapRecs
      rw [h]
      show (if 1 / 10 < (maxByCpk v vs).costPerKwh - (minByCpk v vs).costPerKwh then
          [RecItem.priceGap (labelFor a (minByCpk v vs)) (labelFor a (maxByCpk v vs))
            (minByCpk v vs).costPerKwh (maxByCpk v vs).costPerKwh]
        else []) = []
      rw [if_neg (not_lt.mpr hd)]
    unfold recommendationsOf at hr
    rw [hg, List.append_nil] at hr
    rcases List.mem_append.mp hr with hr | h7
    rcases List.mem_append.mp hr with hr | h6
    rcases List.mem_append.mp hr with hr | h5
    rcases List.mem_append.mp hr with hr | h4
    rcases List.mem_append.mp hr with h1 | h3
    · exact recHighCost_no_gap h1
    · exact recLocs_no_gap h3
    · exact recSocStart_no_gap h4
    · exact recSocEnd_no_gap h5
    · exact recPeak_no_gap h6
    · exact recSmall_no_gap h7

/-- Neutral charging pattern used in the C8 analyses. -/
def patternNone : ChargingPattern :=
  { avgSessionEnergy := 20, preferredChargerTypes := ["unknown"], peakUsageHours := [],
    weekendVsWeekdayQuot := 1, avgSocStart := none, avgSocEnd := none }

def mCheap : EfficiencyMetric :=
  { kwhPerDollar := 4, costPerKwh := 25 / 100, chargingSpeedKw := none,
    efficiencyRating := "fair" }

def mDear : EfficiencyMetric :=
  { kwhPerDollar := 3, costPerKwh := 35 / 100, chargingSpeedKw := none,
    efficiencyRating := "fair" }

/-- Analysis whose two charger-type categories differ by exactly
$0.10/kWh. -/
def aGapTen : EfficiencyAnalysis :=
  { overallEfficiency := mCheap,
    byChargerType := [("home_ac", mCheap), ("supercharger", mDear)],
    byLocation := [], temporalTrends := [], chargingPatterns := patternNone,
    recommendations := [], costSavingsPotential := 0 }

/-- Claim C8 (counterexample): at a gap of exactly $0.10/kWh the claim
demands the price-gap note, but the code's strict `> 0.10` comparison
emits none. -/
theorem c8_gap_counterexample :
    (maxByCpk mCheap [mDear]).costPerKwh - (minByCpk mCheap [mDear]).costPerKwh =
      (1 / 10 : ℚ) ∧
    (recommendationsOf aGapTen).all (fun r => !r.isGap) = true :=
  ⟨by with_unfolding_all rfl, by with_unfolding_all rfl⟩

def mDear2 : EfficiencyMetric :=
  { kwhPerDollar := 5 / 2, costPerKwh := 40 / 100, chargingSpeedKw := none,
    efficiencyRating := "poor" }

/-- Analysis whose two charger-type categories differ by $0.15/kWh. -/
def aGapWide : EfficiencyAnalysis :=
  { overallEfficiency := mCheap,
    byChargerType := [("home_ac", mCheap), ("supercharger", mDear2)],
    byLocation := [], temporalTrends := [], chargingPatterns := patternNone,
    recommendations := [], costSavingsPotential := 0 }

/-- Claim C8 witness: the amended theorem at a $0.15/kWh gap. -/
theorem c8_gap_witness :
    RecItem.priceGap (labelFor aGapWide (minByCpk mCheap [mDear2]))
      (labelFor aGapWide (maxByCpk mCheap [mDear2]))
      (minByCpk mCheap [mDear2]).costPerKwh (maxByCpk mCheap [mDear2]).costPerKwh ∈
      recommendationsOf aGapWide := by
  refine (c8_gap_amended aGapWide mCheap [mDear2] rfl).1 ?_
  have h1 : (maxByCpk mCheap [mDear2]).costPerKwh = 40 / 100 := by with_unfolding_all rfl
  have h2 : (minByCpk mCheap [mDear2]).costPerKwh = 25 / 100 := by with_unfolding_all rfl
  rw [h1, h2]
  norm_num

/-! ## Temporal trends (`ChargingEfficiencyCalculator.analyze_temporal_trends`)

The calculator's frames carry the numeric columns as `Option ℚ` (NaN is
`none`; `pd.to_numeric` on these columns is the identity of the model)
plus presence flags for the `session_date` and `cost_per_kwh` columns.
The duration and SOC columns are always carried; a frame without them
behaves like one where they are all-NaN, which the calculator treats
identically (means of empty series are NaN, and NaN durations are
discarded by the positivity test). -/

structure CRow where
  date : Option Timestamp
  energy : Option ℚ
  cost : Option ℚ
  startSoc : Option ℚ
  endSoc : Option ℚ
  duration : Option ℚ
  cpk : Option ℚ
deriving DecidableEq

structure DFrame where
  hasDate : Bool
  hasCpk : Bool
  rows : List CRow

/-- Column mean with NaN skipped (`Series.mean`): `none` when no value. -/
def meanOpt (l : List (Option ℚ)) : Option ℚ :=
  let vals := l.filterMap id
  if vals.isEmpty then none else some (vals.sum / (vals.length : ℚ))

/-- Sessionwise `total_cost / energy_added_kwh` with missing operands
propagating.  A zero energy is modelled as missing; in pandas it yields
±inf/NaN, but the frames the calculator builds only carry positive
energies (they are filtered by `analyze_efficiency`), where both agree. -/
def divOpt : Option ℚ → Option ℚ → Option ℚ
  | some c, some e => if e = 0 then none else some (c / e)
  | _, _ => none

/-- `sort_values("session_date")` ordering: NaT sorts last. -/
def dateLeB : Option Timestamp → Option Timestamp → Bool
  | none, none => true
  | none, some _ => false
  | some _, none => true
  | some t1, some t2 => decide (t1.utcMin ≤ t2.utcMin)

def dateLtB (d1 d2 : Option Timestamp) : Bool :=
  dateLeB d1 d2 && !(dateLeB d2 d1)

def insertRow (x : CRow) : List CRow → List CRow
  | [] => [x]
  | y :: ys => if dateLtB y.date x.date then y :: insertRow x ys else x :: y :: ys

def sortRows : List CRow → List CRow
  | [] => []
  | x :: xs => insertRow x (sortRows xs)

/-- The frame `analyze_temporal_trends` works on: dates UTC-normalized
and stripped, rows sorted by date, and `cost_per_kwh` filled in when the
column is absent. -/
def temporalRows (df : DFrame) : List CRow :=
  let r1 := df.rows.map (fun r => { r with date := r.date.map stripTz })
  let sorted := sortRows r1
  if df.hasCpk then sorted
  else sorted.map (fun r => { r with cpk := divOpt r.cost r.energy })

/-- The dated rows, tagged with their calendar-month bucket
(`resample("MS")` drops NaT rows). -/
def datedOf (df : DFrame) : List (ℤ × CRow) :=
  (temporalRows df).filterMap (fun r => r.date.map (fun ts => (ts.ym, r)))

/-- The observed month buckets, in ascending (sorted) order. -/
def ymsOf (df : DFrame) : List ℤ :=
  dedupKeys id ((datedOf df).map Prod.fst)

structure MonthAgg where
  cost : Option ℚ
  energy : Option ℚ
  cpk : Option ℚ
deriving DecidableEq

def monthAggOf (df : DFrame) (m : ℤ) : MonthAgg :=
  let bucket := ((datedOf df).filter (fun p => p.1 == m)).map Prod.snd
  { cost := meanOpt (bucket.map (fun r => r.cost)),
    energy := meanOpt (bucket.map (fun r => r.energy)),
    cpk := meanOpt (bucket.map (fun r => r.cpk)) }

/-- The monthly resample: per-month means of cost, energy and
cost_per_kwh, with all-NaN months dropped (`dropna(how="all")`; months
with no rows at all are all-NaN and equally dropped). -/
def monthlyAgg (df : DFrame) : List MonthAgg :=
  ((ymsOf df).map (monthAggOf df)).filter
    (fun m => m.cost.isSome || m.energy.isSome || m.cpk.isSome)

def costSeries (df : DFrame) : List ℚ := (monthlyAgg df).filterMap (fun m => m.cost)

def energySeries (df : DFrame) : List ℚ := (monthlyAgg df).filterMap (fun m => m.energy)

def cpkSeries (df : DFrame) : List ℚ := (monthlyAgg df).filterMap (fun m => m.cpk)

/-- The source's `slope`: 0 for fewer than two observed values, else
`(s.iloc[-1] - s.iloc[0]) / max(1, len(s) - 1)`. -/
def trendSlope (l : List ℚ) : ℚ :=
  if l.length < 2 then 0
  else ((l.getLast?.getD 0) - (l.head?.getD 0)) / ((max 1 (l.length - 1) : ℕ) : ℚ)

/-- The claim's slope formula, written independently: (last observed
value − first observed value) / (number of observed values − 1). -/
def slopeSpec (l : List ℚ) : ℚ :=
  if 2 ≤ l.length then ((l.getLast?.getD 0) - (l.head?.getD 0)) / ((l.length : ℚ) - 1)
  else 0

/-- Embeds `ChargingEfficiencyCalculator.analyze_temporal_trends`:
empty result without a date column or with fewer than 6 rows; monthly
resample; the three named slopes once at least 3 non-empty months
remain. -/
def analyzeTemporalTrends (df : DFrame) : List (String × ℚ) :=
  if df.hasDate = false ∨ df.rows.length < 6 then []
  else if 3 ≤ (monthlyAgg df).length then
    [("monthly_cost_trend", trendSlope (costSeries df)),
     ("monthly_efficiency_trend", trendSlope (cpkSeries df)),
     ("monthly_energy_trend", trendSlope (energySeries df))]
  else []

theorem slope_eq_spec (l : List ℚ) : trendSlope l = slopeSpec l := by
  unfold trendSlope slopeSpec
  by_cases h : l.length < 2
  · rw [if_pos h, if_neg (by omega)]
  · rw [if_neg h, if_pos (by omega)]
    congr 1
    have hmax : max 1 (l.length - 1) = l.length - 1 := by omega
    rw [hmax]
    have h1 : (1 : ℕ) ≤ l.length := by omega
    rw [Nat.cast_sub h1, Nat.cast_one]

/-- A timestamp in calendar-month bucket `m` (timezone-naive). -/
def tsm (m : ℤ) : Timestamp :=
  { utcMin := m, ym := m, hour := 0, wkday := 0, tz := none }

/-- A dated session row in month `m`: 10 kWh for $2. -/
def rowD (m : ℤ) : CRow :=
  { date := some (tsm m), energy := some 10, cost := some 2, startSoc := none,
    endSoc := none, duration := none, cpk := none }

/-- An undated (NaT) session row: 10 kWh for $2. -/
def rowU : CRow :=
  { date := none, energy := some 10, cost := some 2, startSoc := none,
    endSoc := none, duration := none, cpk := none }

/-- 6 rows, of which only 3 are usable dated rows, spanning months
0, 1, 2. -/
def dfCex7 : DFrame :=
  { hasDate := true, hasCpk := false,
    rows := [rowU, rowU, rowU, rowD 0, rowD 1, rowD 2] }

/-- Claim C7 (counterexample): the row-count gate counts all rows, not
usable dated rows.  `dfCex7` has only 3 dated rows (fewer than 6), yet
`analyze_temporal_trends` returns the three slopes because the frame has
6 rows and 3 observed months. -/
theorem c7_trends_counterexample :
    ((dfCex7.rows.filter (fun r => r.date.isSome)).length < 6) ∧
    analyzeTemporalTrends dfCex7 ≠ [] := by
  constructor
  · decide
  · have hval : analyzeTemporalTrends dfCex7 =
        [("monthly_cost_trend", 0), ("monthly_efficiency_trend", 0),
         ("monthly_energy_trend", 0)] := by
      with_unfolding_all rfl
    rw [hval]
    simp

/-- Claim C7 (amended): the result is empty when there is no
session_date column or fewer than 6 rows in total (regardless of how many
are dated); once the frame has at least 6 rows and at least 3 non-empty
resampled months, exactly the three named slopes are returned, each
computed independently over its column's observed monthly means as
(last − first) / (observed − 1) (0 when fewer than 2 observations). -/
theorem c7_trends_amended (df : DFrame) :
    ((df.hasDate = false ∨ df.rows.length < 6) → analyzeTemporalTrends df = []) ∧
    (df.hasDate = true → 6 ≤ df.rows.length → 3 ≤ (monthlyAgg df).length →
      analyzeTemporalTrends df =
        [("monthly_cost_trend", slopeSpec (costSeries df)),
         ("monthly_efficiency_trend", slopeSpec (cpkSeries df)),
         ("monthly_energy_trend", slopeSpec (energySeries df))]) := by
  constructor
  · intro h
    unfold analyzeTemporalTrends
    rw [if_pos h]
  · intro h1 h2 h3
    have hnot : ¬(df.hasDate = false ∨ df.rows.length < 6) := by
      rintro (hf | hl)
      · rw [h1] at hf
        exact Bool.noConfusion hf
      · omega
    unfold analyzeTemporalTrends
    rw [if_neg hnot, if_pos h3, slope_eq_spec, slope_eq_spec, slope_eq_spec]

/-- A single-row frame (fewer than 6 rows). -/
def dfSmall7 : DFrame := { hasDate := true, hasCpk := false, rows := [rowU] }

/-- 6 dated rows spanning months 0, 1, 2. -/
def dfW7 : DFrame :=
  { hasDate := true, hasCpk := false,
    rows := [rowD 0, rowD 0, rowD 1, rowD 1, rowD 2, rowD 2] }

/-- Claim C7 witness: the amended theorem at concrete frames. -/
theorem c7_trends_witness :
    analyzeTemporalTrends dfSmall7 = [] ∧
    analyzeTemporalTrends dfW7 =
      [("monthly_cost_trend", slopeSpec (costSeries dfW7)),
       ("monthly_efficiency_trend", slopeSpec (cpkSeries dfW7)),
       ("monthly_energy_trend", slopeSpec (energySeries dfW7))] := by
  constructor
  · exact (c7_trends_amended dfSmall7).1 (Or.inr (by decide))
  · refine (c7_trends_amended dfW7).2 rfl (by decide) ?_
    have hlen : (monthlyAgg dfW7).length = 3 := by with_unfolding_all rfl
    omega

/-! ## Orchestration (`ChargingEfficiencyCalculator.analyze_efficiency`)

The embedding covers frames carrying the normalized numeric columns and
the optional date column; the `charger_type` and `location_name` columns
are not part of the schema, so the by-charger-type and by-location
branches (guarded by column presence) contribute empty breakdowns.

`EfficiencyAnalysis` is a frozen dataclass
(`@dataclass(frozen=True)`), yet `analyze_efficiency` assigns to
`analysis.recommendations` and `analysis.cost_savings_potential` after
construction; in Python this assignment raises
`dataclasses.FrozenInstanceError` on every call that reaches it, which
the embedding renders as an error result at that point. -/

/-- Hour counts as in `value_counts().head(3)`: distinct hours sorted by
descending count (tie order in pandas is unspecified; first occurrence
is used here). -/
def insertHour (cnt : ℤ → ℕ) (x : ℤ) : List ℤ → List ℤ
  | [] => [x]
  | y :: ys => if cnt x < cnt y then y :: insertHour cnt x ys else x :: y :: ys

def sortHoursDesc (cnt : ℤ → ℕ) : List ℤ → List ℤ
  | [] => []
  | x :: xs => insertHour cnt x (sortHoursDesc cnt xs)

def topHours (hs : List ℤ) : List ℤ :=
  (sortHoursDesc (fun h => hs.count h) (dedupKeys id hs)).take 3

/-- Embeds `ChargingEfficiencyCalculator.analyze_charging_patterns` on
the embedded schema (no `charger_type_category` column, so the preferred
types stay ["unknown"]).  NaT rows count as weekdays in the weekend
quotient, exactly as `dayofweek >= 5` evaluates False on NaN. -/
def analyzeChargingPatterns (df : DFrame) : ChargingPattern :=
  let avgE := (meanOpt (df.rows.map (fun r => r.energy))).getD 0
  let hoursAll := df.rows.filterMap (fun r => r.date.map (fun ts => ts.hour))
  let peak := if df.hasDate then (if hoursAll.isEmpty then [] else topHours hoursAll) else []
  let quot :=
    if df.hasDate then
      let wkd := (df.rows.filter (fun r => match r.date with
        | some ts => decide (5 ≤ ts.wkday)
        | none => false)).length
      let wkdy := df.rows.length - wkd
      if 0 < wkdy then (wkd : ℚ) / (wkdy : ℚ) else 1
    else 1
  { avgSessionEnergy := avgE,
    preferredChargerTypes := ["unknown"],
    peakUsageHours := peak,
    weekendVsWeekdayQuot := quot,
    avgSocStart := meanOpt (df.rows.map (fun r => r.startSoc)),
    avgSocEnd := meanOpt (df.rows.map (fun r => r.endSoc)) }

/-- Embeds `ChargingEfficiencyCalculator.analyze_efficiency`: empty
check, numeric normalization (identity on the model), row filtering,
per-session cost_per_kwh, overall metrics, patterns and trends, then the
construction of the frozen `EfficiencyAnalysis` followed by the
attribute assignment that raises `FrozenInstanceError`. -/
def analyzeEfficiency (df : DFrame) : Except String EfficiencyAnalysis :=
  if df.rows.isEmpty then Except.error "No data available for analysis"
  else
    let work1 :=
      if df.hasDate then df.rows.map (fun r => { r with date := r.date.map stripTz })
      else df.rows
    let work2 := work1.filter (fun r =>
      (match r.energy with | some e => decide (0 < e) | none => false) &&
      (match r.cost with | some c => decide (0 ≤ c) | none => false))
    if work2.isEmpty then Except.error "All rows were invalid after basic normalization."
    else
      let work3 := work2.map (fun r => { r with cpk := divOpt r.cost r.energy })
      let dfW : DFrame := { hasDate := df.hasDate, hasCpk := true, rows := work3 }
      let totalEnergy := (work3.filterMap (fun r => r.energy)).sum
      let totalCost := (work3.filterMap (fun r => r.cost)).sum
      let avgDuration := meanOpt (work3.map (fun r => r.duration))
      match calculateEfficiencyMetrics totalEnergy totalCost avgDuration with
      | Except.error e => Except.error e
      | Except.ok overall =>
          let _analysis : EfficiencyAnalysis :=
            { overallEfficiency := overall, byChargerType := [], byLocation := [],
              temporalTrends := analyzeTemporalTrends dfW,
              chargingPatterns := analyzeChargingPatterns dfW,
              recommendations := [], costSavingsPotential := 0 }
          Except.error "FrozenInstanceError: cannot assign to field recommendations"

/-- Claim C1: `analyze_efficiency` never returns an `EfficiencyAnalysis`.
Every path either raises one of its own validation errors or reaches the
two-pass fill-in, where assigning `recommendations` on the frozen
dataclass raises `FrozenInstanceError` — so the claim's successful
two-pass construction is unreachable for every input table, including
those with a valid row. -/
theorem c1_analyze_never_returns (df : DFrame) :
    (analyzeEfficiency df).toOption = none := by
  unfold analyzeEfficiency
  split
  · rfl
  · split
    all_goals
      dsimp only
      split
      · rfl
      · split <;> rfl
